import Mathlib

/-!
Verification of the semantic-version bump validator
(`.github/scripts/check-semver.py`) of the polkadot-sdk repository.

The script compares two workspace snapshots (lists of crates with
versions, publish flags and metadata) and a set of prdoc change
documents, and validates that every published, non-internal crate's
version change is a strict semver increment matching the declared bump.

The `cargo_workspace` Python library (`Version`, `VersionBumpKind`,
`Version.diff`, the strictness predicates and `into_mmp`) is an external
dependency whose code is not part of the repository; those pieces are
modelled from the specification (its sections 3, 4.1 and 4.2), as
flagged by doc comments below.  Everything else is translated directly
from the Python source.
-/

namespace CheckSemver

/-- A semantic version: a (major, minor, patch) triple plus an optional
pre-release/build suffix, mirroring `cargo_workspace.Version`
(modelled from the spec, section 3: "a triple (major, minor, patch)
plus an optional pre-release/build suffix string"). -/
structure Version where
  major : Nat
  minor : Nat
  patch : Nat
  suffix : Option String := none
deriving DecidableEq, Repr

/-- Rendering of the numeric triple, mirroring `Version.into_xyz()`. -/
def Version.into_xyz (v : Version) : String :=
  toString v.major ++ "." ++ toString v.minor ++ "." ++ toString v.patch

/-- Full rendering of a version, suffix included. -/
def Version.render (v : Version) : String :=
  match v.suffix with
  | none => v.into_xyz
  | some s => v.into_xyz ++ "-" ++ s

/-- Modelled from the spec: `cargo_workspace.Version.into_mmp` is library
code missing from the repository.  Per the spec (section 3), a newly
introduced published package must start at one of the three canonical
bootstrap versions 0.0.1, 0.1.0 or 1.0.0; the source realises this by
comparing `into_mmp()` with `Version(1)`, i.e. `into_mmp` shifts the
version so that its leading non-zero component becomes the major one. -/
def Version.into_mmp (v : Version) : Version :=
  if v.major > 0 then { major := v.major, minor := v.minor, patch := v.patch }
  else if v.minor > 0 then { major := v.minor, minor := v.patch, patch := 0 }
  else { major := v.patch, minor := 0, patch := 0 }

/-- The kind of a version bump, mirroring
`cargo_workspace.VersionBumpKind` (modelled from the spec, section 4.2:
vocabulary patch, minor, major with total order Major > Minor > Patch). -/
inductive VersionBumpKind where
  | patch
  | minor
  | major
deriving DecidableEq, Repr

/-- Rank realising the total order Patch < Minor < Major. -/
def VersionBumpKind.rank : VersionBumpKind → Nat
  | .patch => 0
  | .minor => 1
  | .major => 2

/-- Python's `max` on two bump kinds: returns the second argument when it
is strictly greater, the first otherwise. -/
def VersionBumpKind.maxK (a b : VersionBumpKind) : VersionBumpKind :=
  if a.rank < b.rank then b else a

/-- Rendering of a bump kind, matching the spec vocabulary. -/
def VersionBumpKind.render : VersionBumpKind → String
  | .patch => "patch"
  | .minor => "minor"
  | .major => "major"

/-- Modelled from the spec: `VersionBumpKind.from_str` is library code
missing from the repository.  Section 4.2: "Bump keywords map to
BumpKind via a fixed vocabulary: patch, minor, major (validated against
an enumerated set; unrecognized keywords fail the whole run)". -/
def VersionBumpKind.from_str (s : String) : Except String VersionBumpKind :=
  if s = "patch" then .ok .patch
  else if s = "minor" then .ok .minor
  else if s = "major" then .ok .major
  else .error ("Unknown bump kind " ++ s)

/-- The transition between two versions, mirroring the value returned by
`old.version.diff(new.version)`.  The classifying predicates below are
modelled from the spec (section 4.1). -/
structure VersionBump where
  old : Version
  new : Version
deriving DecidableEq, Repr

/-- `Version.diff` pairs the two versions; all classification is derived. -/
def Version.diff (o n : Version) : VersionBump := ⟨o, n⟩

/-- Spec 4.1: "If all three numeric fields are equal, the bump is None". -/
def VersionBump.is_none (b : VersionBump) : Bool :=
  b.old.major = b.new.major ∧ b.old.minor = b.new.minor ∧ b.old.patch = b.new.patch

/-- Spec 4.1: "If major increased, the bump is Major, regardless of
minor/patch values". -/
def VersionBump.is_major (b : VersionBump) : Bool :=
  b.new.major > b.old.major

/-- Spec 4.1: "Else if minor increased (major unchanged), bump is Minor". -/
def VersionBump.is_minor (b : VersionBump) : Bool :=
  b.new.major = b.old.major ∧ b.new.minor > b.old.minor

/-- Spec 4.1: "Else if patch increased (major, minor unchanged), bump is
Patch". -/
def VersionBump.is_patch (b : VersionBump) : Bool :=
  b.new.major = b.old.major ∧ b.new.minor = b.old.minor ∧ b.new.patch > b.old.patch

/-- Spec 4.1: a Major bump "is strict only if the increase is exactly 1
and both minor and patch in the new version are 0". -/
def VersionBump.is_strict_major (b : VersionBump) : Bool :=
  b.new.major = b.old.major + 1 ∧ b.new.minor = 0 ∧ b.new.patch = 0

/-- Spec 4.1: a Minor bump is "strict only if minor increased by exactly
1 and patch is reset to 0". -/
def VersionBump.is_strict_minor (b : VersionBump) : Bool :=
  b.new.minor = b.old.minor + 1 ∧ b.new.patch = 0

/-- Spec 4.1: a Patch bump is "strict only if patch increased by exactly
1". -/
def VersionBump.is_strict_patch (b : VersionBump) : Bool :=
  b.new.patch = b.old.patch + 1

/-- The kind of a bump, as consulted by `check_prdoc_bumps` via
`bump.kind`; `none` for an unchanged or non-canonical (decreasing)
transition, which the validation flow rules out before consulting it. -/
def VersionBump.kind (b : VersionBump) : Option VersionBumpKind :=
  if b.is_major then some .major
  else if b.is_minor then some .minor
  else if b.is_patch then some .patch
  else none

/-- Rendering of a bump as used inside error messages for `{bump}`. -/
def VersionBump.render (b : VersionBump) : String :=
  b.old.into_xyz ++ " -> " ++ b.new.into_xyz

/-- Rendering of `bump.kind` inside `bump_str`. -/
def VersionBump.kindRender (b : VersionBump) : String :=
  match b.kind with
  | some k => k.render
  | none => "none"

/-- A crate of a workspace snapshot: name, version, publish flag and
string-keyed metadata (`polkadot-sdk.internal` marks internal crates). -/
structure Crate where
  name : String
  version : Version
  publish : Bool
  metadata : List (String × Bool) := []
deriving DecidableEq, Repr

/-- `new.metadata.get('polkadot-sdk.internal', False)`. -/
def Crate.isInternal (c : Crate) : Bool :=
  ((c.metadata.lookup ("polkadot-sdk.internal")).getD false)

/-- `crates.find_by_name(name)`: the first crate with the given name. -/
def find_by_name (crates : List Crate) (n : String) : Option Crate :=
  crates.find? (fun c => c.name = n)

/-- One entry of a prdoc document's `crates` list: a crate name and an
optional bump keyword (`crate['name']`, `crate.get('bump', None)`). -/
structure CrateEntry where
  name : String
  bump : Option String
deriving DecidableEq, Repr

/-- A prdoc change document: its `crates` list (`prdoc.get('crates', [])`). -/
structure Prdoc where
  crates : List CrateEntry
deriving DecidableEq, Repr

/-- The aggregated declared-bump mapping, a Python dict modelled as an
association list updated in place. -/
abbrev BumpMap := List (String × VersionBumpKind)

/-- `bumps_per_crate.get(name, None)`: first entry with the given key. -/
def BumpMap.get : BumpMap → String → Option VersionBumpKind
  | [], _ => none
  | (n', k) :: rest, n => if n' = n then some k else BumpMap.get rest n

/-- The dict update of `parse_prdocs`: `bumps[name] = max(bumps[name],
bump)` when present, plain insertion otherwise. -/
def BumpMap.update (m : BumpMap) (n : String) (k : VersionBumpKind) : BumpMap :=
  match m with
  | [] => [(n, k)]
  | (n', k') :: rest =>
    if n' = n then (n', k'.maxK k) :: rest
    else (n', k') :: BumpMap.update rest n k

/-- The inner loop of `parse_prdocs` over one document's `crates` list. -/
def parseEntries (m : BumpMap) : List CrateEntry → Except String BumpMap
  | [] => .ok m
  | e :: es =>
    match e.bump with
    | none => parseEntries m es
    | some s =>
      match VersionBumpKind.from_str s with
      | .error err => .error err
      | .ok k => parseEntries (m.update e.name k) es

/-- The outer loop of `parse_prdocs` over the documents. -/
def parseDocs (m : BumpMap) : List Prdoc → Except String BumpMap
  | [] => .ok m
  | d :: ds =>
    match parseEntries m d.crates with
    | .error err => .error err
    | .ok m' => parseDocs m' ds

/-- `parse_prdocs`: parse the prdoc files and return the highest bump per
crate. -/
def parse_prdocs (prdocs : List Prdoc) : Except String BumpMap :=
  parseDocs [] prdocs

/-- `check_crate_semver_bumps`: check that a crate's bump is valid by
itself (strict increment of its kind), prdoc not taken into account. -/
def check_crate_semver_bumps (new : Crate) (bump : VersionBump) : Except String Unit :=
  if bump.is_none then .ok ()
  else if bump.is_major then
    if ¬ bump.is_strict_major then
      .error ("❌ When the major version increases, then it must increase exactly by one and the minor and patch versions must be reset to 0, got: " ++ new.version.render)
    else .ok ()
  else if bump.is_minor then
    if ¬ bump.is_strict_minor then
      .error ("❌ When the minor version increases, then it must increase exactly by one and the patch version must be reset to 0, got: " ++ new.version.render)
    else .ok ()
  else if bump.is_patch then
    if ¬ bump.is_strict_patch then
      .error ("❌ When the patch version increases, then it must increase exactly by one, got: " ++ new.version.render)
    else .ok ()
  else
    .error ("❌ Crate " ++ new.name ++ " has an invalid version bump " ++ bump.render)

/-- `check_prdoc_bumps`: check that the crate's computed bump matches the
declared prdoc bump. -/
def check_prdoc_bumps (crate : Crate) (bump : VersionBump) (expected_crate_bumps : BumpMap) : Except String Unit :=
  let expected_bump_kind := expected_crate_bumps.get crate.name
  let got_bump_kind := if bump.is_none then none else bump.kind
  let bump_str := bump.render ++ " (" ++ bump.kindRender ++ ")"
  match expected_bump_kind, got_bump_kind with
  | none, some _ =>
    .error ("❌ Crate " ++ crate.name ++ " has no prdoc bump but got " ++ bump_str)
  | some e, none =>
    .error ("❌ Crate " ++ crate.name ++ " has prdoc bump " ++ e.render ++ " but got none")
  | some e, some g =>
    if e ≠ g then
      .error ("❌ Crate " ++ crate.name ++ " has prdoc bump " ++ e.render ++ " but got " ++ bump_str)
    else .ok ()
  | none, none => .ok ()

/-- One iteration of the `for new in news.crates` loop of
`check_crate_bumps`: skips (returns ok) unpublished and internal crates,
then performs the suffix, bootstrap, strict-semver and prdoc checks;
the first raised `ValueError` becomes the `Except.error`. -/
def check_one (olds : List Crate) (expected : BumpMap) (new : Crate) : Except String Unit :=
  if ¬ new.publish then .ok ()
  else if new.isInternal then .ok ()
  else if new.version.suffix.isSome then
    .error ("❌ Crate " ++ new.name ++ " cannot have a suffix since it is published")
  else
    match find_by_name olds new.name with
    | none =>
      if new.version.into_mmp ≠ { major := 1, minor := 0, patch := 0 } then
        .error ("❌ Crate " ++ new.name ++ " is new and must be introduced with version 0.0.1, 0.1.0 or 1.0.0, not " ++ new.version.into_xyz)
      else .ok ()
    | some old =>
      let bump := old.version.diff new.version
      match check_crate_semver_bumps new bump with
      | .error e => .error e
      | .ok _ => check_prdoc_bumps new bump expected

/-- The crate loop of `check_crate_bumps`: a raised `ValueError` aborts
the whole run at the first failing crate. -/
def check_crates (olds : List Crate) (expected : BumpMap) : List Crate → Except String Unit
  | [] => .ok ()
  | c :: cs =>
    match check_one olds expected c with
    | .error e => .error e
    | .ok _ => check_crates olds expected cs

/-- `check_crate_bumps` on already-materialized snapshots: parse the
prdocs (done first in the source), then validate every new crate. -/
def check_crate_bumps (olds news : List Crate) (prdocs : List Prdoc) : Except String Unit :=
  match parse_prdocs prdocs with
  | .error e => .error e
  | .ok expected => check_crates olds expected news

/-! ### Supporting lemmas about the bump classification -/

lemma is_major_not_minor (b : VersionBump) (h : b.is_major = true) : b.is_minor = false := by
  simp only [VersionBump.is_major, decide_eq_true_eq] at h
  simp only [VersionBump.is_minor, decide_eq_false_iff_not]
  omega

lemma is_major_not_patch (b : VersionBump) (h : b.is_major = true) : b.is_patch = false := by
  simp only [VersionBump.is_major, decide_eq_true_eq] at h
  simp only [VersionBump.is_patch, decide_eq_false_iff_not]
  omega

lemma is_minor_not_patch (b : VersionBump) (h : b.is_minor = true) : b.is_patch = false := by
  simp only [VersionBump.is_minor, decide_eq_true_eq] at h
  simp only [VersionBump.is_patch, decide_eq_false_iff_not]
  omega

/-- The fixture crate used for the concrete 1.2.3 → 1.4.0 scenario. -/
def crate140 : Crate :=
  { name := "demo", version := ⟨1, 4, 0, none⟩, publish := true }

/-- C3: for a package whose version changed, the strict-semver check
passes exactly when the bump is the minimal strict increment of its
kind; in particular 1.2.3 → 1.4.0 is a non-strict Minor bump and fails
with the message naming the expected minimal increment. -/
theorem semver_check_rejects_non_strict :
    (∀ (c : Crate) (b : VersionBump), b.is_none = false →
      (check_crate_semver_bumps c b = .ok () ↔
        (b.is_major && b.is_strict_major || b.is_minor && b.is_strict_minor
          || b.is_patch && b.is_strict_patch) = true)) ∧
    ((Version.diff ⟨1, 2, 3, none⟩ ⟨1, 4, 0, none⟩).is_minor = true ∧
      (Version.diff ⟨1, 2, 3, none⟩ ⟨1, 4, 0, none⟩).is_strict_minor = false ∧
      check_crate_semver_bumps crate140 (Version.diff ⟨1, 2, 3, none⟩ ⟨1, 4, 0, none⟩) =
        .error ("❌ When the minor version increases, then it must increase exactly by one and the patch version must be reset to 0, got: 1.4.0")) := by
  constructor
  · intro c b h
    unfold check_crate_semver_bumps
    rw [h]
    by_cases hM : b.is_major = true
    · rw [hM, is_major_not_minor b hM, is_major_not_patch b hM]
      by_cases hS : b.is_strict_major = true
      · simp [hS]
      · simp [hS]
    · rw [Bool.not_eq_true] at hM
      rw [hM]
      by_cases hm : b.is_minor = true
      · rw [hm, is_minor_not_patch b hm]
        by_cases hS : b.is_strict_minor = true
        · simp [hS]
        · simp [hS]
      · rw [Bool.not_eq_true] at hm
        rw [hm]
        by_cases hp : b.is_patch = true
        · rw [hp]
          by_cases hS : b.is_strict_patch = true
          · simp [hS]
          · simp [hS]
        · rw [Bool.not_eq_true] at hp
          rw [hp]
          simp
  · exact ⟨by decide, by decide, by rfl⟩

/-- C3 witness: the general equivalence applied at the concrete strict
patch bump 1.0.0 → 1.0.1, which passes. -/
theorem semver_check_rejects_non_strict_witness :
    check_crate_semver_bumps crate140 (Version.diff ⟨1, 0, 0, none⟩ ⟨1, 0, 1, none⟩) = .ok () := by
  exact (semver_check_rejects_non_strict.1 crate140
    (Version.diff ⟨1, 0, 0, none⟩ ⟨1, 0, 1, none⟩) (by decide)).2 (by decide)

/-- C2: the declared-bump comparison passes exactly when the declared
entry equals the computed bump kind (absence meaning "no declared entry
expected"), and a kind mismatch fails with the message naming both the
declared and the computed kind. -/
theorem prdoc_check_matches_declared :
    (∀ (c : Crate) (b : VersionBump) (m : BumpMap),
      (check_prdoc_bumps c b m = .ok () ↔
        BumpMap.get m c.name = (if b.is_none then none else b.kind))) ∧
    (∀ (c : Crate) (b : VersionBump) (m : BumpMap) (e g : VersionBumpKind),
      BumpMap.get m c.name = some e →
      (if b.is_none then none else b.kind) = some g →
      e ≠ g →
      check_prdoc_bumps c b m =
        .error ("❌ Crate " ++ c.name ++ " has prdoc bump " ++ e.render ++ " but got "
          ++ (b.render ++ " (" ++ b.kindRender ++ ")"))) := by
  constructor
  · intro c b m
    unfold check_prdoc_bumps
    rcases hE : BumpMap.get m c.name with _ | e <;>
      rcases hG : (if b.is_none then none else b.kind) with _ | g <;>
        simp [hE, hG]
  · intro c b m e g hE hG hne
    unfold check_prdoc_bumps
    simp [hE, hG, hne]

/-- C2 witness: a crate with computed bump Minor and declared bump Major
fails with the message naming both kinds. -/
theorem prdoc_check_matches_declared_witness :
    check_prdoc_bumps crate140 (Version.diff ⟨1, 3, 0, none⟩ ⟨1, 4, 0, none⟩)
      [("demo", VersionBumpKind.major)] =
      .error ("❌ Crate demo has prdoc bump major but got 1.3.0 -> 1.4.0 (minor)") := by
  have h := prdoc_check_matches_declared.2 crate140
    (Version.diff ⟨1, 3, 0, none⟩ ⟨1, 4, 0, none⟩)
    [("demo", VersionBumpKind.major)] VersionBumpKind.major VersionBumpKind.minor
    (by decide) (by decide) (by decide)
  exact h

lemma into_mmp_eq_one (v : Version) (hs : v.suffix = none) :
    v.into_mmp = ⟨1, 0, 0, none⟩ ↔
      (v = ⟨0, 0, 1, none⟩ ∨ v = ⟨0, 1, 0, none⟩ ∨ v = ⟨1, 0, 0, none⟩) := by
  obtain ⟨M, m, p, s⟩ := v
  simp only at hs
  subst hs
  unfold Version.into_mmp
  split_ifs with h1 h2 <;> simp_all [Version.mk.injEq] <;> omega

/-- C4: a published, non-internal, suffix-free crate absent from the base
snapshot passes exactly when its version is one of the three bootstrap
versions 0.0.1, 0.1.0, 1.0.0, and the declared-bump map plays no role in
its outcome (the declared-bump comparison is skipped for new crates). -/
theorem new_crate_bootstrap (olds : List Crate) (e1 e2 : BumpMap) (c : Crate)
    (hp : c.publish = true) (hi : c.isInternal = false) (hs : c.version.suffix = none)
    (hnew : find_by_name olds c.name = none) :
    (check_one olds e1 c = .ok () ↔
      (c.version = ⟨0, 0, 1, none⟩ ∨ c.version = ⟨0, 1, 0, none⟩ ∨ c.version = ⟨1, 0, 0, none⟩)) ∧
    check_one olds e1 c = check_one olds e2 c := by
  have key : ∀ e : BumpMap, check_one olds e c =
      (if c.version.into_mmp ≠ ⟨1, 0, 0, none⟩ then
        .error ("❌ Crate " ++ c.name ++ " is new and must be introduced with version 0.0.1, 0.1.0 or 1.0.0, not " ++ c.version.into_xyz)
      else .ok ()) := by
    intro e
    simp [check_one, hp, hi, hs, hnew]
  constructor
  · rw [key e1, ← into_mmp_eq_one c.version hs]
    by_cases h : c.version.into_mmp = ⟨1, 0, 0, none⟩ <;> simp [h]
  · rw [key e1, key e2]

/-- C4 witness: a new crate at bootstrap version 0.1.0 is accepted, with
an arbitrary nonempty declared-bump map. -/
theorem new_crate_bootstrap_witness :
    check_one [] [("n", VersionBumpKind.major)] ⟨"n", ⟨0, 1, 0, none⟩, true, []⟩ = .ok () := by
  exact (new_crate_bootstrap [] [("n", VersionBumpKind.major)] [] ⟨"n", ⟨0, 1, 0, none⟩, true, []⟩
    rfl rfl rfl rfl).1.mpr (Or.inr (Or.inl rfl))

lemma check_crates_ok_of_mem (olds : List Crate) (e : BumpMap) (news : List Crate)
    (h : check_crates olds e news = .ok ()) :
    ∀ c ∈ news, check_one olds e c = .ok () := by
  induction news with
  | nil => intro c hc; cases hc
  | cons hd tl ih =>
    intro c hc
    unfold check_crates at h
    rcases hh : check_one olds e hd with _ | u
    · rw [hh] at h; cases h
    · rw [hh] at h
      cases hc with
      | head => exact hh
      | tail b hc => exact ih h c hc

/-- C7 (amended): a published, non-internal crate whose version has a
pre-release suffix always makes its check fail with the fixed message
naming the crate (the version is not part of the message), and any run
whose new snapshot contains such a crate cannot succeed. -/
theorem suffix_always_rejected :
    (∀ (olds : List Crate) (e : BumpMap) (c : Crate),
      c.publish = true → c.isInternal = false → c.version.suffix.isSome = true →
      check_one olds e c =
        .error ("❌ Crate " ++ c.name ++ " cannot have a suffix since it is published")) ∧
    (∀ (olds news : List Crate) (e : BumpMap) (c : Crate),
      c.publish = true → c.isInternal = false → c.version.suffix.isSome = true →
      c ∈ news → check_crates olds e news ≠ .ok ()) := by
  have one : ∀ (olds : List Crate) (e : BumpMap) (c : Crate),
      c.publish = true → c.isInternal = false → c.version.suffix.isSome = true →
      check_one olds e c =
        .error ("❌ Crate " ++ c.name ++ " cannot have a suffix since it is published") := by
    intro olds e c hp hi hs
    simp [check_one, hp, hi, hs]
  refine ⟨one, ?_⟩
  intro olds news e c hp hi hs hmem hok
  have := check_crates_ok_of_mem olds e news hok c hmem
  rw [one olds e c hp hi hs] at this
  cases this

/-- The fixture for the suffixed-crate scenario: version 1.2.3-beta. -/
def crateSuffixed : Crate := ⟨"foo", ⟨1, 2, 3, some "beta"⟩, true, []⟩

/-- C7 witness: the amended theorem applied to the 1.2.3-beta fixture,
at the single-crate run level. -/
theorem suffix_always_rejected_witness :
    check_crates [] [] [crateSuffixed] ≠ .ok () := by
  exact suffix_always_rejected.2 [] [crateSuffixed] [] crateSuffixed rfl rfl rfl
    (List.mem_singleton.mpr rfl)

/-- C7 counterexample: the suffix error for crate foo at 1.2.3-beta names
the package but contains neither the rendered version nor even a digit,
so the error does not report the actual version. -/
theorem suffix_message_lacks_version :
    check_one [] [] crateSuffixed =
      .error ("❌ Crate foo cannot have a suffix since it is published") ∧
    ¬ List.IsInfix (String.toList (Version.render crateSuffixed.version))
      (String.toList ("❌ Crate foo cannot have a suffix since it is published")) ∧
    ¬ List.IsInfix (String.toList ("1.2.3"))
      (String.toList ("❌ Crate foo cannot have a suffix since it is published")) ∧
    (String.toList ("❌ Crate foo cannot have a suffix since it is published")).all
      (fun ch => ! ch.isDigit) = true := by
  exact ⟨rfl, by decide, by decide, by decide⟩

/-- Fixture: a published crate with a suffixed version, named b1. -/
def bad1 : Crate := ⟨"b1", ⟨1, 2, 3, some "x"⟩, true, []⟩

/-- Fixture: a published crate with a suffixed version, named b2. -/
def bad2 : Crate := ⟨"b2", ⟨1, 2, 3, some "y"⟩, true, []⟩

/-- C1 counterexample: with two crates that each violate policy on their
own, the run's result is the first crate's single error message and is
identical with or without the second violating crate, whose distinct
violation is therefore never reported: failures are not collected. -/
theorem violations_not_collected :
    check_crate_bumps [] [bad1, bad2] [⟨[]⟩] =
      .error ("❌ Crate b1 cannot have a suffix since it is published") ∧
    check_crate_bumps [] [bad2] [⟨[]⟩] =
      .error ("❌ Crate b2 cannot have a suffix since it is published") ∧
    check_crate_bumps [] [bad1, bad2] [⟨[]⟩] = check_crate_bumps [] [bad1] [⟨[]⟩] ∧
    ("❌ Crate b1 cannot have a suffix since it is published" : String) ≠
      "❌ Crate b2 cannot have a suffix since it is published" := by
  exact ⟨rfl, rfl, rfl, by decide⟩

/-- C1 (amended): validation aborts at the first policy violation: when
every crate before some crate passes and that crate fails, the run's
result is exactly that crate's error, whatever comes after it. -/
theorem run_aborts_at_first_violation (olds : List Crate) (e : BumpMap)
    (pre : List Crate) (c : Crate) (post : List Crate) (err : String)
    (hpre : ∀ x ∈ pre, check_one olds e x = .ok ())
    (hc : check_one olds e c = .error err) :
    check_crates olds e (pre ++ c :: post) = .error err := by
  induction pre with
  | nil => simp [check_crates, hc]
  | cons p ps ih =>
    have hp := hpre p (by simp)
    rw [List.cons_append]
    unfold check_crates
    rw [hp]
    exact ih (fun x hx => hpre x (by simp [hx]))

/-- Fixture: an unpublished crate, skipped by the validator. -/
def unpub : Crate := ⟨"u", ⟨9, 9, 9, some "dev"⟩, false, []⟩

/-- C1 witness: with a passing crate first, then the suffixed crate b2,
then b1, the run stops with b2's error. -/
theorem run_aborts_at_first_violation_witness :
    check_crates [] [] ([unpub] ++ bad2 :: [bad1]) =
      .error ("❌ Crate b2 cannot have a suffix since it is published") := by
  exact run_aborts_at_first_violation [] [] [unpub] bad2 [bad1] _
    (by intro x hx; simp at hx; subst hx; rfl) rfl

/-- Fixture: an unchanged published crate present in both snapshots. -/
def crateA : Crate := ⟨"a", ⟨1, 0, 0, none⟩, true, []⟩

/-- Fixture: a prdoc declaring a major bump for a crate that exists in no
snapshot. -/
def ghostDoc : Prdoc := ⟨[⟨"ghost", some "major"⟩]⟩

/-- C6 counterexample: a change document naming the nonexistent package
"ghost" does not abort the run — the run succeeds even though the
aggregated map contains the ghost entry and no snapshot has the crate. -/
theorem ghost_package_ignored :
    check_crate_bumps [crateA] [crateA] [ghostDoc] = .ok () ∧
    parse_prdocs [ghostDoc] = .ok [("ghost", VersionBumpKind.major)] ∧
    find_by_name [crateA] "ghost" = none ∧ find_by_name [] "ghost" = none := by
  exact ⟨rfl, rfl, rfl, rfl⟩

lemma check_one_congr (olds : List Crate) (e1 e2 : BumpMap) (c : Crate)
    (h : BumpMap.get e1 c.name = BumpMap.get e2 c.name) :
    check_one olds e1 c = check_one olds e2 c := by
  have hpr : ∀ b : VersionBump, check_prdoc_bumps c b e1 = check_prdoc_bumps c b e2 := by
    intro b
    unfold check_prdoc_bumps
    rw [h]
  unfold check_one
  split_ifs <;> try rfl
  all_goals rcases hf : find_by_name olds c.name with _ | old
  all_goals try rfl
  all_goals rcases hs : check_crate_semver_bumps c (old.version.diff c.version) with s | u <;>
    simp only [hs, hpr]

/-- C6 (amended): the validator consults the declared-bump map only at
the names of new-snapshot crates, so declared entries for packages that
exist in no snapshot are silently ignored rather than reported. -/
theorem declared_bumps_outside_new_snapshot_ignored (olds news : List Crate) (e1 e2 : BumpMap)
    (h : ∀ c ∈ news, BumpMap.get e1 c.name = BumpMap.get e2 c.name) :
    check_crates olds e1 news = check_crates olds e2 news := by
  induction news with
  | nil => rfl
  | cons hd tl ih =>
    unfold check_crates
    rw [check_one_congr olds e1 e2 hd (h hd (by simp))]
    rcases hh : check_one olds e2 hd with _ | u
    · rfl
    · exact ih (fun c hc => h c (by simp [hc]))

/-- C6 witness: dropping the ghost entry from the aggregated map leaves
the run over the one-crate snapshot unchanged. -/
theorem declared_bumps_outside_new_snapshot_ignored_witness :
    check_crates [crateA] [("ghost", VersionBumpKind.major)] [crateA] =
      check_crates [crateA] [] [crateA] := by
  exact declared_bumps_outside_new_snapshot_ignored [crateA] [crateA]
    [("ghost", VersionBumpKind.major)] [] (by intro c hc; simp at hc; subst hc; rfl)

lemma check_crates_cons (olds : List Crate) (e : BumpMap) (c : Crate) (cs : List Crate) :
    check_crates olds e (c :: cs) =
      match check_one olds e c with
      | .error er => .error er
      | .ok _ => check_crates olds e cs := rfl

lemma check_crates_cons_ok (olds : List Crate) (e : BumpMap) (c : Crate) (cs : List Crate)
    (h : check_one olds e c = .ok ()) :
    check_crates olds e (c :: cs) = check_crates olds e cs := by
  rw [check_crates_cons, h]

lemma check_crates_cons_err (olds : List Crate) (e : BumpMap) (c : Crate) (cs : List Crate)
    (er : String) (h : check_one olds e c = .error er) :
    check_crates olds e (c :: cs) = .error er := by
  rw [check_crates_cons, h]

lemma check_one_skips (olds : List Crate) (e : BumpMap) (c : Crate)
    (h : c.publish = false ∨ c.isInternal = true) : check_one olds e c = .ok () := by
  unfold check_one
  rcases h with h | h
  · rw [h]
    simp
  · rw [h]
    by_cases hp : c.publish = true <;> simp [hp]

lemma find_by_name_append_single (olds : List Crate) (r : Crate) (n : String)
    (h : ¬ n = r.name) :
    find_by_name (olds ++ [r]) n = find_by_name olds n := by
  unfold find_by_name
  induction olds with
  | nil =>
    have hr : (r.name = n) = False := eq_false (fun hh => h hh.symm)
    simp [List.find?, hr]
  | cons o os ih =>
    by_cases ho : o.name = n
    · simp [List.find?, ho]
    · simp only [List.cons_append]
      rw [List.find?_cons_of_neg _ (by simpa using ho), List.find?_cons_of_neg _ (by simpa using ho)]
      exact ih

/-- C10: the validator iterates only over published, non-internal crates
of the new snapshot.  First conjunct: an unpublished or internal crate
anywhere in the new snapshot is skipped before any check — even one with
a suffixed version — leaving the result unchanged.  Second conjunct: a
crate present only in the base snapshot (a removed package) is never
examined and produces no failure, whatever the declared-bump map says. -/
theorem validator_examines_only_new_published (olds : List Crate) (e : BumpMap) :
    (∀ (pre : List Crate) (c : Crate) (post : List Crate),
      c.publish = false ∨ c.isInternal = true →
      check_crates olds e (pre ++ c :: post) = check_crates olds e (pre ++ post)) ∧
    (∀ (r : Crate) (news : List Crate),
      (∀ c ∈ news, ¬ c.name = r.name) →
      check_crates (olds ++ [r]) e news = check_crates olds e news) := by
  constructor
  · intro pre c post hc
    induction pre with
    | nil =>
      simp only [List.nil_append]
      exact check_crates_cons_ok _ _ _ _ (check_one_skips olds e c hc)
    | cons p ps ih =>
      simp only [List.cons_append]
      rcases hp : check_one olds e p with s | u
      · rw [check_crates_cons_err _ _ _ _ _ hp, check_crates_cons_err _ _ _ _ _ hp]
      · rw [check_crates_cons_ok _ _ _ _ hp, check_crates_cons_ok _ _ _ _ hp]
        exact ih
  · intro r news hn
    induction news with
    | nil => rfl
    | cons hd tl ih =>
      have hone : check_one (olds ++ [r]) e hd = check_one olds e hd := by
        unfold check_one
        rw [find_by_name_append_single olds r hd.name (hn hd (by simp))]
      rcases hh : check_one olds e hd with s | u
      · rw [check_crates_cons_err _ _ _ _ _ (hone.trans hh),
          check_crates_cons_err _ _ _ _ _ hh]
      · rw [check_crates_cons_ok _ _ _ _ (hone.trans hh), check_crates_cons_ok _ _ _ _ hh]
        exact ih (fun x hx => hn x (by simp [hx]))

/-- C10 witness: the internal suffixed crate and the removed crate r do
not change the outcome of a concrete run. -/
theorem validator_examines_only_new_published_witness :
    check_crates [] [] ([crateA] ++ ⟨"i", ⟨1, 0, 0, some "dev"⟩, true, [("polkadot-sdk.internal", true)]⟩ :: []) =
      check_crates [] [] ([crateA] ++ []) ∧
    check_crates ([] ++ [⟨"gone", ⟨2, 0, 0, none⟩, true, []⟩]) [] [crateA] =
      check_crates [] [] [crateA] := by
  constructor
  · exact (validator_examines_only_new_published [] []).1 [crateA]
      ⟨"i", ⟨1, 0, 0, some "dev"⟩, true, [("polkadot-sdk.internal", true)]⟩ [] (Or.inr rfl)
  · exact (validator_examines_only_new_published [] []).2 ⟨"gone", ⟨2, 0, 0, none⟩, true, []⟩
      [crateA] (by intro x hx; simp at hx; subst hx; decide)

/-- The validation pass as a step-by-step run relation: one constructor
per loop iteration of `check_crate_bumps`, either aborting with the
iteration's error or carrying on. -/
inductive CheckRun (olds : List Crate) (expected : BumpMap) : List Crate → Except String Unit → Prop where
  | nil : CheckRun olds expected [] (.ok ())
  | consErr {c : Crate} {cs : List Crate} {e : String} :
      check_one olds expected c = .error e → CheckRun olds expected (c :: cs) (.error e)
  | consOk {c : Crate} {cs : List Crate} {r : Except String Unit} :
      check_one olds expected c = .ok () → CheckRun olds expected cs r →
      CheckRun olds expected (c :: cs) r

/-- C9: the validator is deterministic: the function `check_crates` is a
run, and any two runs over the same snapshots and declared-bump map
produce the same result, so executing the validation twice on identical
inputs yields identical results. -/
theorem validator_deterministic (olds : List Crate) (e : BumpMap) (news : List Crate) :
    CheckRun olds e news (check_crates olds e news) ∧
    (∀ r1 r2 : Except String Unit,
      CheckRun olds e news r1 → CheckRun olds e news r2 → r1 = r2) := by
  constructor
  · induction news with
    | nil => exact CheckRun.nil
    | cons hd tl ih =>
      rcases hh : check_one olds e hd with s | u
      · rw [check_crates_cons_err _ _ _ _ _ hh]
        exact CheckRun.consErr hh
      · rw [check_crates_cons_ok _ _ _ _ hh]
        exact CheckRun.consOk hh ih
  · intro r1 r2 h1 h2
    induction h1 with
    | nil => cases h2; rfl
    | consErr hc =>
      cases h2 with
      | consErr hc2 => rw [hc] at hc2; exact hc2
      | consOk hc2 _ => rw [hc] at hc2; cases hc2
    | consOk hc _ ih =>
      cases h2 with
      | consErr hc2 => rw [hc] at hc2; cases hc2
      | consOk hc2 htl => exact ih htl

/-- C9 witness: the two ways of running the validator on a concrete
input — the function and an explicit run derivation — agree. -/
theorem validator_deterministic_witness :
    (Except.ok () : Except String Unit) = .ok () := by
  exact (validator_deterministic [] [] [crateA]).2 (check_crates [] [] [crateA]) (.ok ())
    (validator_deterministic [] [] [crateA]).1
    (CheckRun.consOk (by rfl) CheckRun.nil)

/-- The kinds one document's entries declare for a crate name, in order,
using the same keyword parsing as the aggregator. -/
def entryKinds (n : String) : List CrateEntry → List VersionBumpKind
  | [] => []
  | e :: es =>
    match e.bump with
    | none => entryKinds n es
    | some s =>
      match VersionBumpKind.from_str s with
      | .error _ => entryKinds n es
      | .ok k => if e.name = n then k :: entryKinds n es else entryKinds n es

/-- All kinds declared for a crate name across a list of documents. -/
def declaredKinds (n : String) : List Prdoc → List VersionBumpKind
  | [] => []
  | d :: ds => entryKinds n d.crates ++ declaredKinds n ds

/-- One aggregation step: fold a newly declared kind into the current
optional maximum. -/
def maxStep (o : Option VersionBumpKind) (k : VersionBumpKind) : Option VersionBumpKind :=
  some (match o with
  | none => k
  | some a => a.maxK k)

/-- The running maximum of a list of declared kinds. -/
def foldMax (o : Option VersionBumpKind) (l : List VersionBumpKind) : Option VersionBumpKind :=
  l.foldl maxStep o

lemma maxK_cases (a b : VersionBumpKind) : a.maxK b = a ∨ a.maxK b = b := by
  unfold VersionBumpKind.maxK
  split_ifs <;> simp

lemma rank_le_maxK_left (a b : VersionBumpKind) : a.rank ≤ (a.maxK b).rank := by
  unfold VersionBumpKind.maxK
  split_ifs with h
  · omega
  · exact le_rfl

lemma rank_le_maxK_right (a b : VersionBumpKind) : b.rank ≤ (a.maxK b).rank := by
  unfold VersionBumpKind.maxK
  split_ifs with h
  · exact le_rfl
  · omega

lemma maxStep_spec (o : Option VersionBumpKind) (j : VersionBumpKind) :
    ∃ m0, maxStep o j = some m0 ∧ (m0 = j ∨ o = some m0) ∧ j.rank ≤ m0.rank ∧
      (∀ a, o = some a → a.rank ≤ m0.rank) := by
  rcases o with _ | a
  · exact ⟨j, rfl, Or.inl rfl, le_rfl, by intro a h; cases h⟩
  · refine ⟨a.maxK j, rfl, ?_, rank_le_maxK_right a j, ?_⟩
    · rcases maxK_cases a j with h | h
      · exact Or.inr (by rw [h])
      · exact Or.inl h
    · intro x hx
      have hax := Option.some.inj hx
      rw [← hax]
      exact rank_le_maxK_left a j

lemma foldMax_some (o : Option VersionBumpKind) (l : List VersionBumpKind) (k : VersionBumpKind)
    (h : foldMax o l = some k) :
    (k ∈ l ∨ o = some k) ∧ (∀ j ∈ l, j.rank ≤ k.rank) ∧
      (∀ a, o = some a → a.rank ≤ k.rank) := by
  induction l generalizing o with
  | nil =>
    have ho : o = some k := h
    refine ⟨Or.inr ho, ?_, ?_⟩
    · intro j hj
      cases hj
    · intro a ha
      rw [ho] at ha
      cases Option.some.inj ha
      exact le_rfl
  | cons j l ih =>
    obtain ⟨m0, hm0, hor, hjm, hacc⟩ := maxStep_spec o j
    have h' : foldMax (maxStep o j) l = some k := h
    obtain ⟨hmem, hub, hstep⟩ := ih (maxStep o j) h'
    have hm0k : m0.rank ≤ k.rank := hstep m0 hm0
    constructor
    · rcases hmem with hm | hm
      · exact Or.inl (List.mem_cons_of_mem j hm)
      · rw [hm0] at hm
        have : m0 = k := Option.some.inj hm
        subst this
        rcases hor with h1 | h1
        · exact Or.inl (h1 ▸ List.mem_cons_self m0 l)
        · exact Or.inr h1
    · constructor
      · intro x hx
        rcases List.mem_cons.mp hx with h1 | h1
        · subst h1
          exact le_trans hjm hm0k
        · exact hub x h1
      · intro a ha
        exact le_trans (hacc a ha) hm0k

lemma foldMax_isSome (l : List VersionBumpKind) (a : VersionBumpKind) :
    (foldMax (some a) l).isSome = true := by
  induction l generalizing a with
  | nil => rfl
  | cons j l ih => exact ih (a.maxK j)

lemma foldMax_none_iff (l : List VersionBumpKind) : foldMax none l = none ↔ l = [] := by
  cases l with
  | nil => simp [foldMax]
  | cons j l =>
    constructor
    · intro h
      have h1 : foldMax (some j) l = none := h
      have h2 := foldMax_isSome l j
      rw [h1] at h2
      cases h2
    · intro h
      cases h

lemma get_update (m : BumpMap) (n : String) (k : VersionBumpKind) (x : String) :
    BumpMap.get (m.update n k) x =
      if x = n then maxStep (BumpMap.get m n) k else BumpMap.get m x := by
  induction m with
  | nil =>
    by_cases h : x = n
    · subst h
      simp [BumpMap.update, BumpMap.get, maxStep]
    · have h2 : ¬ n = x := fun hh => h hh.symm
      simp [BumpMap.update, BumpMap.get, maxStep, h, h2]
  | cons p rest ih =>
    obtain ⟨n', k'⟩ := p
    by_cases hn : n' = n
    · subst hn
      by_cases hx : n' = x
      · subst hx
        simp [BumpMap.update, BumpMap.get, maxStep]
      · have h2 : ¬ x = n' := fun hh => hx hh.symm
        simp [BumpMap.update, BumpMap.get, maxStep, hx, h2]
    · by_cases hx : n' = x
      · subst hx
        have h2 : ¬ n' = n := hn
        simp [BumpMap.update, BumpMap.get, hn, h2]
      · simp [BumpMap.update, BumpMap.get, hn, hx, ih]

lemma parseEntries_get (es : List CrateEntry) (m m' : BumpMap)
    (h : parseEntries m es = .ok m') (n : String) :
    BumpMap.get m' n = foldMax (BumpMap.get m n) (entryKinds n es) := by
  induction es generalizing m with
  | nil =>
    cases h
    rfl
  | cons e es ih =>
    obtain ⟨en, eb⟩ := e
    rcases eb with _ | s
    · exact ih m h
    · rcases hfs : VersionBumpKind.from_str s with er | k
      · rw [show parseEntries m (⟨en, some s⟩ :: es) =
            (match VersionBumpKind.from_str s with
             | .error err => .error err
             | .ok k => parseEntries (m.update en k) es) from rfl, hfs] at h
        simp at h
      · rw [show parseEntries m (⟨en, some s⟩ :: es) =
            (match VersionBumpKind.from_str s with
             | .error err => .error err
             | .ok k => parseEntries (m.update en k) es) from rfl, hfs] at h
        have hrec := ih (m.update en k) h
        rw [hrec, get_update]
        rw [show entryKinds n (⟨en, some s⟩ :: es) =
            (match VersionBumpKind.from_str s with
             | .error e2 => entryKinds n es
             | .ok k2 => if en = n then k2 :: entryKinds n es else entryKinds n es) from rfl, hfs]
        by_cases hx : en = n
        · subst hx
          simp only [if_true]
          rfl
        · simp only []
          rw [if_neg hx, if_neg (fun hh => hx hh.symm)]

lemma parseDocs_get (ds : List Prdoc) (m m' : BumpMap)
    (h : parseDocs m ds = .ok m') (n : String) :
    BumpMap.get m' n = foldMax (BumpMap.get m n) (declaredKinds n ds) := by
  induction ds generalizing m with
  | nil =>
    cases h
    rfl
  | cons d ds ih =>
    unfold parseDocs at h
    rcases hp : parseEntries m d.crates with er | m1
    · rw [hp] at h
      cases h
    · rw [hp] at h
      rw [ih m1 h, parseEntries_get d.crates m m1 hp n]
      rw [show declaredKinds n (d :: ds) = entryKinds n d.crates ++ declaredKinds n ds from rfl]
      exact (List.foldl_append _ _ _ _).symm

/-- C5: when aggregation succeeds, the resulting map sends each package
name to the maximum bump kind declared for it across all documents
(under the order Major > Minor > Patch), and has no entry exactly for
names with no declaration. -/
theorem parse_prdocs_aggregates_max (docs : List Prdoc) (m : BumpMap)
    (h : parse_prdocs docs = .ok m) (n : String) :
    (BumpMap.get m n = none ↔ declaredKinds n docs = []) ∧
    (∀ k, BumpMap.get m n = some k →
      k ∈ declaredKinds n docs ∧ ∀ j ∈ declaredKinds n docs, j.rank ≤ k.rank) := by
  have hg := parseDocs_get docs [] m h n
  constructor
  · rw [hg]
    exact foldMax_none_iff _
  · intro k hk
    rw [hg] at hk
    obtain ⟨hmem, hub, _⟩ := foldMax_some none _ k hk
    refine ⟨?_, hub⟩
    rcases hmem with hm | hm
    · exact hm
    · cases hm

/-- C5 witness: a package declared once as patch and once as major
aggregates to major, which the theorem confirms is among — and an upper
bound of — its declared kinds. -/
theorem parse_prdocs_aggregates_max_witness :
    BumpMap.get [("foo", VersionBumpKind.major)] "foo" = some VersionBumpKind.major ∧
    VersionBumpKind.major ∈
      declaredKinds "foo" [⟨[⟨"foo", some "patch"⟩]⟩, ⟨[⟨"foo", some "major"⟩]⟩] := by
  have h := parse_prdocs_aggregates_max [⟨[⟨"foo", some "patch"⟩]⟩, ⟨[⟨"foo", some "major"⟩]⟩]
    [("foo", VersionBumpKind.major)] (by rfl) "foo"
  exact ⟨by rfl, (h.2 VersionBumpKind.major (by rfl)).1⟩

lemma parseEntries_skip_none (pre post : List CrateEntry) (n : String) (m : BumpMap) :
    parseEntries m (pre ++ ⟨n, none⟩ :: post) = parseEntries m (pre ++ post) := by
  induction pre generalizing m with
  | nil => rfl
  | cons e pre ih =>
    obtain ⟨en, eb⟩ := e
    simp only [List.cons_append]
    rcases eb with _ | s
    · exact ih m
    · rcases hf : VersionBumpKind.from_str s with er | k <;>
        rw [show parseEntries m (CrateEntry.mk en (some s) :: (pre ++ CrateEntry.mk n none :: post)) =
              (match VersionBumpKind.from_str s with
               | .error err => .error err
               | .ok k2 => parseEntries (m.update en k2) (pre ++ CrateEntry.mk n none :: post)) from rfl,
            show parseEntries m (CrateEntry.mk en (some s) :: (pre ++ post)) =
              (match VersionBumpKind.from_str s with
               | .error err => .error err
               | .ok k2 => parseEntries (m.update en k2) (pre ++ post)) from rfl, hf]
      exact ih (m.update en k)

lemma parseDocs_skip_none (docs1 : List Prdoc) (pre post : List CrateEntry) (n : String)
    (docs2 : List Prdoc) (m : BumpMap) :
    parseDocs m (docs1 ++ ⟨pre ++ ⟨n, none⟩ :: post⟩ :: docs2) =
      parseDocs m (docs1 ++ ⟨pre ++ post⟩ :: docs2) := by
  induction docs1 generalizing m with
  | nil =>
    simp only [List.nil_append]
    unfold parseDocs
    rw [show (Prdoc.mk (pre ++ ⟨n, none⟩ :: post)).crates = pre ++ ⟨n, none⟩ :: post from rfl,
      show (Prdoc.mk (pre ++ post)).crates = pre ++ post from rfl,
      parseEntries_skip_none]
  | cons d ds ih =>
    simp only [List.cons_append]
    unfold parseDocs
    rcases hp : parseEntries m d.crates with er | m1
    · rfl
    · exact ih m1

/-- C8: a change-document entry that names a package but carries no bump
keyword contributes nothing to the aggregation: deleting the entry from
its document leaves the aggregator's output unchanged, so no "None"
declaration is created for the package. -/
theorem entry_without_bump_contributes_nothing (docs1 : List Prdoc)
    (pre post : List CrateEntry) (n : String) (docs2 : List Prdoc) :
    parse_prdocs (docs1 ++ ⟨pre ++ ⟨n, none⟩ :: post⟩ :: docs2) =
      parse_prdocs (docs1 ++ ⟨pre ++ post⟩ :: docs2) := by
  unfold parse_prdocs
  exact parseDocs_skip_none docs1 pre post n docs2 []

end CheckSemver
